import Mathlib

/-!
Verification development for the xcat-ng XPath-injection attack engine.

The Python sources under src/xcat are shallowly embedded below:

* pure string manipulation (payload templates, the nested delay payload,
  parameter substitution) is translated to executable Lean functions;
* the HTTP transport, the boolean oracle and the response-diffing helper
  are abstracted as explicit function parameters (the claims quantify over
  all responses, so only the call structure matters);
* Python floats (request times, thresholds) are modelled as rationals;
* code that can raise is modelled with Option / Except.

The external `xpath` expression-builder package is not part of the
repository; its combinators are modelled from the specification (section 3
gives the wire form of each lambda-based payload, and section 9 records
that `E` preserves the literal string it is given and that the lambda
combinators reject plain strings).
-/

/-- A parsed Python format string: the token stream that `str.format`
produces for a template over the placeholders `working` / `expression`.
`w` stands for the `working` placeholder and `e` for `expression`. -/
inductive FmtTok
  | lit (s : String)
  | w
  | e
  deriving DecidableEq, Repr

/-- Render a parsed format string, substituting the working value for `w`
tokens and the expression text for `e` tokens (Python `str.format`). -/
def renderFmt (toks : List FmtTok) (working expression : String) : String :=
  toks.foldl
    (fun acc t =>
      acc ++ (match t with
        | .lit s => s
        | .w => working
        | .e => expression))
    ""

/-- An argument handed to an injection payload: either a plain Python
string or an expression object from the external builder DSL.  `str()` of
either is its wire text. -/
inductive ExprArg
  | raw (s : String)
  | expr (s : String)
  deriving DecidableEq, Repr

/-- Wire text of an argument (Python `str(...)`). -/
def ExprArg.wire : ExprArg → String
  | .raw s => s
  | .expr s => s

/-- The four lambda payload combinators of the injection catalog.  Their
wire forms are not in the repository (they come from the external `xpath`
package); they are modelled from the spec, section 3. -/
inductive BuilderKind
  | attrPre
  | attrPost
  | elemPre
  | elemPost
  deriving DecidableEq, Repr

/-- Modelled from the spec: wire form of each lambda payload combinator
(spec section 3, items 5-8), and the fact that the combinators accept
expression objects but raise on plain strings (spec section 9: the source
catches that exception and falls back).  A raised exception is `none`. -/
def BuilderKind.run : BuilderKind → String → ExprArg → Option String
  | .attrPre, working, .expr s => some (s ++ " and " ++ working)
  | .attrPost, working, .expr s => some (working ++ " and " ++ s ++ " and " ++ working)
  | .elemPre, working, .expr s => some (".[" ++ s ++ "]/" ++ working)
  | .elemPost, working, .expr s => some (working ++ "[" ++ s ++ "]")
  | _, _, .raw _ => none

/-- An injection payload: either a format string with `working` /
`expression` placeholders, or a callable combinator. -/
inductive InjPayload
  | template (toks : List FmtTok)
  | builder (k : BuilderKind)
  deriving DecidableEq, Repr

/-- The `Injection` named tuple of src/xcat/attack.py.  Test templates only
use the `working` placeholder. -/
structure Injection where
  name : String
  exampleText : String
  test_template_payloads : List (List FmtTok × Bool)
  payload : InjPayload
  deriving DecidableEq, Repr

/-- `Injection.__call__`: render the payload with a working value and an
expression argument; `none` models a raised exception. -/
def Injection.render (inj : Injection) (working : String) (e : ExprArg) : Option String :=
  match inj.payload with
  | .template toks => some (renderFmt toks working e.wire)
  | .builder k => k.run working e

/-- `Injection.test_payloads`: format every test template with the working
value (test templates contain no `expression` placeholder). -/
def Injection.test_payloads (inj : Injection) (working : String) : List (String × Bool) :=
  inj.test_template_payloads.map (fun te => (renderFmt te.1 working "", te.2))

/-- Catalog entry `integer` with payload format `{working} and {expression}`. -/
def injection_integer : Injection :=
  { name := "integer"
    exampleText := "/lib/book[id=?]"
    test_template_payloads :=
      [ ([.w, .lit " and 1=1"], true),
        ([.w, .lit " and 1=2"], false) ]
    payload := .template [.w, .lit " and ", .e] }

/-- Catalog entry `string - single quote`. -/
def injection_string_single : Injection :=
  { name := "string - single quote"
    exampleText := "/lib/book[name='?']"
    test_template_payloads :=
      [ ([.w, .lit "' and '1'='1"], true),
        ([.w, .lit "' and '1'='2"], false) ]
    payload := .template [.w, .lit "' and ", .e, .lit " and '1'='1"] }

/-- Catalog entry `string - single quote - or`. -/
def injection_string_single_or : Injection :=
  { name := "string - single quote - or"
    exampleText := "/lib/book[name='?'] (or-based, use with dummy value)"
    test_template_payloads :=
      [ ([.w, .lit "' or true() and '1'='1"], true),
        ([.w, .lit "' or false() and '1'='1"], false) ]
    payload := .template [.w, .lit "' or ", .e, .lit " and '1'='1"] }

/-- Catalog entry `string - double quote`. -/
def injection_string_double : Injection :=
  { name := "string - double quote"
    exampleText := "/lib/book[name=\"?\"]"
    test_template_payloads :=
      [ ([.w, .lit "\" and \"1\"=\"1"], true),
        ([.w, .lit "\" and \"1\"=\"2"], false) ]
    payload := .template [.w, .lit "\" and ", .e, .lit " and \"1\"=\"1"] }

/-- Catalog entry `string - double quote - or`. -/
def injection_string_double_or : Injection :=
  { name := "string - double quote - or"
    exampleText := "/lib/book[name=\"?\"] (or-based, use with dummy value)"
    test_template_payloads :=
      [ ([.w, .lit "\" or true() and \"1\"=\"1"], true),
        ([.w, .lit "\" or false() and \"1\"=\"1"], false) ]
    payload := .template [.w, .lit "\" or ", .e, .lit " and \"1\"=\"1"] }

/-- Catalog entry `attribute name - prefix` (lambda payload). -/
def injection_attr_pre : Injection :=
  { name := "attribute name - prefix"
    exampleText := "/lib/book[?=value]"
    test_template_payloads :=
      [ ([.lit "1=1 and ", .w], true),
        ([.lit "1=2 and ", .w], false) ]
    payload := .builder .attrPre }

/-- Catalog entry `attribute name - postfix` (lambda payload). -/
def injection_attr_post : Injection :=
  { name := "attribute name - postfix"
    exampleText := "/lib/book[?=value]"
    test_template_payloads :=
      [ ([.w, .lit " and not 1=2 and ", .w], true),
        ([.w, .lit " and 1=2 and ", .w], false) ]
    payload := .builder .attrPost }

/-- Catalog entry `element name - prefix` (lambda payload). -/
def injection_elem_pre : Injection :=
  { name := "element name - prefix"
    exampleText := "/lib/something?/"
    test_template_payloads :=
      [ ([.lit ".[true()]/", .w], true),
        ([.lit ".[false()]/", .w], false) ]
    payload := .builder .elemPre }

/-- Catalog entry `element name - postfix` (lambda payload). -/
def injection_elem_post : Injection :=
  { name := "element name - postfix"
    exampleText := "/lib/?something"
    test_template_payloads :=
      [ ([.w, .lit "[true()]"], true),
        ([.w, .lit "[false()]"], false) ]
    payload := .builder .elemPost }

/-- Catalog entry `function call - last string parameter - single quote`. -/
def injection_func_single : Injection :=
  { name := "function call - last string parameter - single quote"
    exampleText := "/lib/something[function(?)]"
    test_template_payloads :=
      [ ([.w, .lit "') and true() and string('1'='1"], true),
        ([.w, .lit "') and false() and string('1'='1"], false) ]
    payload := .template [.w, .lit "') and ", .e, .lit " and string('1'='1"] }

/-- Catalog entry `function call - last string parameter - double quote`. -/
def injection_func_double : Injection :=
  { name := "function call - last string parameter - double quote"
    exampleText := "/lib/something[function(?)]"
    test_template_payloads :=
      [ ([.w, .lit "\") and true() and string(\"1\"=\"1"], true),
        ([.w, .lit "\") and false() and string(\"1\"=\"1"], false) ]
    payload := .template [.w, .lit "\") and ", .e, .lit " and string(\"1\"=\"1"] }

/-- Catalog entry `other elements - last string parameter - double quote`. -/
def injection_other_elements : Injection :=
  { name := "other elements - last string parameter - double quote"
    exampleText := "/lib/something[function(?) and false()] | //*[?]"
    test_template_payloads :=
      [ ([.w, .lit "\") and false()] | //*[true() and string(\"1\"=\"1"], true),
        ([.w, .lit "\") and false()] | //*[false() and string(\"1\"=\"1"], false) ]
    payload := .template [.w, .lit "\") and false()] | //*[", .e, .lit " and string(\"1\"=\"1"] }

/-- The `injectors` catalog of src/xcat/injections.py, in declaration order. -/
def injectors : List Injection :=
  [ injection_integer,
    injection_string_single,
    injection_string_single_or,
    injection_string_double,
    injection_string_double_or,
    injection_attr_pre,
    injection_attr_post,
    injection_elem_pre,
    injection_elem_post,
    injection_func_single,
    injection_func_double,
    injection_other_elements ]

/-- `detect_injections` of src/xcat/injections.py: during detection the
context carries no injection, so `check` submits each formatted test
payload directly to the boolean oracle; an entry is kept when every
result equals its expected boolean. -/
def detect_injections (oracle : String → Bool) (working : String) : List Injection :=
  injectors.filter
    (fun injector =>
      (injector.test_payloads working).all (fun pe => oracle pe.1 == pe.2))

/-- Inner helper of `make_delay_payload` (src/xcat/attack.py): the loop
body wraps the payload `n` times around the base expression. -/
def delayAux : Nat → String
  | 0 => "count((//.))"
  | n + 1 => "count((//.)[" ++ delayAux n ++ "])"

/-- `make_delay_payload` of src/xcat/attack.py.  Python `range(nesting - 1)`
performs `max (nesting - 1) 0` iterations, which is `(nesting - 1).toNat`
for an integer argument. -/
def make_delay_payload (nesting : Int) : String :=
  delayAux (nesting - 1).toNat

/-- A feature test of src/xcat/features.py: either an XPath expression
(its wire text) submitted through `check`, or one of the two `test_oob`
callables, identified by the OOB path it probes. -/
inductive FeatureTest
  | expr (s : String)
  | oobCallable (path : String)
  deriving DecidableEq, Repr

/-- The `Feature` named tuple of src/xcat/features.py. -/
structure Feature where
  name : String
  tests : List FeatureTest
  false_tests : List String := []
  deriving DecidableEq, Repr

/-- Resolve one feature test to a boolean: expression tests go through the
boolean oracle (`check`), callable tests through the OOB test runner. -/
def FeatureTest.resolve (oracle : String → Bool) (oobResolve : String → Bool) : FeatureTest → Bool
  | .expr s => oracle s
  | .oobCallable path => oobResolve path

/-- Feature `xpath-2` of the catalog. -/
def feature_xpath_2 : Feature :=
  { name := "xpath-2"
    tests :=
      [ .expr "lower-case('A') = 'a'",
        .expr "ends-with('thetest', 'test')",
        .expr "encode-for-uri('test') = 'test'" ]
    false_tests := ["lower-case('A') = 'z'"] }

/-- Feature `xpath-3` of the catalog. -/
def feature_xpath_3 : Feature :=
  { name := "xpath-3"
    tests := [.expr "boolean(generate-id(/))"] }

/-- Feature `xpath-3.1` of the catalog. -/
def feature_xpath_31 : Feature :=
  { name := "xpath-3.1"
    tests := [.expr "contains-token('a', 'a')"]
    false_tests := ["contains-token('a', 'z')"] }

/-- Feature `normalize-space` of the catalog. -/
def feature_normalize_space : Feature :=
  { name := "normalize-space"
    tests := [.expr "normalize-space('  a  b ') = 'a b'"]
    false_tests := ["normalize-space('  a  b ') = 'zzz'"] }

/-- Feature `substring-search` of the catalog.  The tests reference the
`ASCII_SEARCH_SPACE` constant of xcat/algorithms.py (not under src); the
exact wire text is irrelevant here, so the tests are kept as descriptive
opaque tokens. -/
def feature_substring_search : Feature :=
  { name := "substring-search"
    tests :=
      [ .expr "string-length(substring-before(ASCII_SEARCH_SPACE, 'h')) = index-of('h')",
        .expr "string-length(substring-before(ASCII_SEARCH_SPACE, 'o')) = index-of('o')" ]
    false_tests := ["string-length(substring-before(ASCII_SEARCH_SPACE, 'h')) = 9999"] }

/-- Feature `codepoint-search` of the catalog. -/
def feature_codepoint_search : Feature :=
  { name := "codepoint-search"
    tests := [.expr "string-to-codepoints('test')[1] = 116"]
    false_tests := ["string-to-codepoints('test')[1] = 999"] }

/-- Feature `environment-variables` of the catalog. -/
def feature_environment_variables : Feature :=
  { name := "environment-variables"
    tests := [.expr "exists(available-environment-variables())"]
    false_tests := ["empty(available-environment-variables())"] }

/-- Feature `document-uri` of the catalog. -/
def feature_document_uri : Feature :=
  { name := "document-uri"
    tests := [.expr "document-uri(/)"] }

/-- Feature `base-uri` of the catalog. -/
def feature_base_uri : Feature :=
  { name := "base-uri"
    tests := [.expr "base-uri()"] }

/-- Feature `current-datetime` of the catalog. -/
def feature_current_datetime : Feature :=
  { name := "current-datetime"
    tests := [.expr "string(current-dateTime())"] }

/-- Feature `unparsed-text` of the catalog. -/
def feature_unparsed_text : Feature :=
  { name := "unparsed-text"
    tests := [.expr "unparsed-text-available(document-uri(/))"] }

/-- Feature `doc-function` of the catalog. -/
def feature_doc_function : Feature :=
  { name := "doc-function"
    tests := [.expr "doc-available(document-uri(/))"] }

/-- Feature `linux` of the catalog. -/
def feature_linux : Feature :=
  { name := "linux"
    tests := [.expr "unparsed-text-available('/etc/passwd')"] }

/-- Feature `expath-file` of the catalog (the file-namespace URI braces
are escaped as \x7b / \x7d). -/
def feature_expath_file : Feature :=
  { name := "expath-file"
    tests := [.expr "string-length(Q\x7bhttp://expath.org/ns/file\x7dcurrent-dir()) > 0"] }

/-- Feature `saxon` of the catalog. -/
def feature_saxon : Feature :=
  { name := "saxon"
    tests := [.expr "saxon:evaluate('1+1') = 2"]
    false_tests := ["saxon:evaluate('1+1') = 9"] }

/-- Feature `oob-http` of the catalog. -/
def feature_oob_http : Feature :=
  { name := "oob-http"
    tests := [.oobCallable "/test/data"] }

/-- Feature `oob-entity-injection` of the catalog. -/
def feature_oob_entity_injection : Feature :=
  { name := "oob-entity-injection"
    tests := [.oobCallable "/test/entity"] }

/-- The `features` catalog of src/xcat/features.py, in declaration order. -/
def features : List Feature :=
  [ feature_xpath_2,
    feature_xpath_3,
    feature_xpath_31,
    feature_normalize_space,
    feature_substring_search,
    feature_codepoint_search,
    feature_environment_variables,
    feature_document_uri,
    feature_base_uri,
    feature_current_datetime,
    feature_unparsed_text,
    feature_doc_function,
    feature_linux,
    feature_expath_file,
    feature_saxon,
    feature_oob_http,
    feature_oob_entity_injection ]

/-- Per-feature body of `detect_features` (src/xcat/features.py): all
positive tests must pass; if they do and `false_tests` is non-empty, the
false tests run and any `true` among them demotes the feature. -/
def feature_enabled (oracle oobResolve : String → Bool) (f : Feature) : Bool :=
  let positive_pass := f.tests.all (fun t => t.resolve oracle oobResolve)
  let negative_pass :=
    if positive_pass && !f.false_tests.isEmpty then
      !(f.false_tests.any oracle)
    else
      true
  positive_pass && negative_pass

/-- `detect_features` of src/xcat/features.py: one `(feature, enabled)`
pair per catalog entry, in order. -/
def detect_features (oracle oobResolve : String → Bool) : List (Feature × Bool) :=
  features.map (fun f => (f, feature_enabled oracle oobResolve f))

/-- Outcome of one physical HTTP request: a response (status, body,
elapsed seconds) or a transport failure / timeout. -/
inductive TransportResult
  | ok (status : Nat) (body : String) (elapsed : Rat)
  | failure
  deriving DecidableEq

/-- The slice of `AttackContext` (src/xcat/attack.py) that the oracle
primitives read.  `time_delay_expr` is `None` outside time-based mode. -/
structure Ctx where
  target_parameter : String
  parameters : List (String × String)
  match_function : Nat → String → Bool
  time_based : Bool
  time_delay_expr : Option String
  time_threshold : Rat
  injection : Option Injection

/-- `AttackContext.target_parameter_value`: the working value.  The CLI
validates that the target name is among the parameters, so the default is
never reached for contexts built by the tool. -/
def Ctx.target_parameter_value (ctx : Ctx) : String :=
  (ctx.parameters.lookup ctx.target_parameter).getD ""

/-- Python dict update `parameters[k] = v` on a copied parameter map: an
existing key keeps its position, a missing key is appended. -/
def setParam : List (String × String) → String → String → List (String × String)
  | [], k, v => [(k, v)]
  | kv :: rest, k, v => if kv.1 == k then (k, v) :: rest else kv :: setParam rest k v

/-- Python f-string interpolation of an optional string (`str(None)` is
`"None"`). -/
def pyStrOpt : Option String → String
  | some s => s
  | none => "None"

/-- Observable behaviour of one `check` call: the raw value placed in the
target parameter (none when payload rendering raised before any request),
the oracle verdict or the propagated exception, and how many physical
requests were attempted. -/
structure CheckOut where
  sent : Option String
  result : Except Unit Bool
  requests : Nat

/-- `check` of src/xcat/attack.py.  In time-based mode the probe is wrapped
as `E(f"{payload} and {context.time_delay_expr}")` and rendered through the
injection; otherwise the payload goes through the injection when one is
set, or is sent as-is.  Exactly one request is attempted (the source has no
try/except around `session.request`), and its outcome is taken from
`transport 0`.  `check_rendered` is the value-construction prefix of
`check`: what lands in the target parameter. -/
def check_rendered (ctx : Ctx) (payload : ExprArg) : Option String :=
  match ctx.injection with
  | none => some payload.wire
  | some inj =>
    if ctx.time_based then
      inj.render ctx.target_parameter_value
        (ExprArg.expr (payload.wire ++ " and " ++ pyStrOpt ctx.time_delay_expr))
    else
      inj.render ctx.target_parameter_value payload

def check (ctx : Ctx) (payload : ExprArg) (transport : Nat → TransportResult) : CheckOut :=
  match check_rendered ctx payload with
  | none => { sent := none, result := .error (), requests := 0 }
  | some value =>
    match transport 0 with
    | .failure => { sent := some value, result := .error (), requests := 1 }
    | .ok status body elapsed =>
      { sent := some value
        result := .ok (if ctx.time_based then decide (ctx.time_threshold ≤ elapsed)
                       else ctx.match_function status body)
        requests := 1 }

/-- `timed_request` of src/xcat/attack.py: substitute the raw value into a
copy of the parameter map, attempt exactly one request and return the
elapsed time; a transport failure propagates (there is no try/except). -/
def timed_request (ctx : Ctx) (raw_value : String) (transport : Nat → TransportResult) :
    List (String × String) × Except Unit Rat × Nat :=
  let parameters := setParam ctx.parameters ctx.target_parameter raw_value
  match transport 0 with
  | .failure => (parameters, .error (), 1)
  | .ok _ _ elapsed => (parameters, .ok elapsed, 1)

/-- Modelled from the spec words of claim C4: the claimed wire form, with
the probe parenthesized before conjunction with the delay expression. -/
def claimed_timed_wire (probe delay : String) : String :=
  "(" ++ probe ++ ") and " ++ delay

/-- Payload pair rendered by `detect_injections_timed` for one injector:
`injector(working, E(f"true() and {delay}"))` and the same with `false()`.
Both renders sit inside one `try`, so a raise in either skips the entry. -/
def renderTimedPair (inj : Injection) (working delay : String) : Option (String × String) :=
  match inj.render working (.expr ("true() and " ++ delay)),
        inj.render working (.expr ("false() and " ++ delay)) with
  | some t, some f => some (t, f)
  | _, _ => none

/-- Loop state of `detect_injections_timed`: detected entries plus the
best observed (true_time, false_time) pair. -/
structure TimedAcc where
  detected : List Injection
  best_true_time : Rat
  best_false_time : Rat
  deriving Repr

/-- One iteration of the `detect_injections_timed` loop
(src/xcat/injections.py): skip entries whose rendering raises, measure the
false and true payloads, accept when `true_time > false_time * 2` and
`true_time > 1.0`, and track the pair with the largest true time. -/
def timedStep (measure : String → Rat) (working delay : String)
    (acc : TimedAcc) (injector : Injection) : TimedAcc :=
  match renderTimedPair injector working delay with
  | none => acc
  | some (true_payload, false_payload) =>
    let false_time := measure false_payload
    let true_time := measure true_payload
    if false_time * 2 < true_time ∧ 1 < true_time then
      { detected := acc.detected ++ [injector]
        best_true_time := if acc.best_true_time < true_time then true_time else acc.best_true_time
        best_false_time := if acc.best_true_time < true_time then false_time else acc.best_false_time }
    else
      acc

/-- `detect_injections_timed` of src/xcat/injections.py.  `measure` maps a
rendered payload to the elapsed seconds observed for it.  Returns the
detected entries and the calibrated threshold: the midpoint of the best
observed pair, or 0.0 when nothing was detected. -/
def detect_injections_timed (measure : String → Rat) (working delay : String) :
    List Injection × Rat :=
  let acc := injectors.foldl (timedStep measure working delay)
    { detected := [], best_true_time := 0, best_false_time := 0 }
  (acc.detected, if acc.detected.isEmpty then 0 else (acc.best_true_time + acc.best_false_time) / 2)

/-- Acceptance test of the timed detector as a boolean predicate on one
catalog entry (used to characterize the loop above). -/
def timedAcceptsB (measure : String → Rat) (working delay : String) (inj : Injection) : Bool :=
  match renderTimedPair inj working delay with
  | none => false
  | some (tp, fp) => decide (measure fp * 2 < measure tp ∧ 1 < measure tp)

/-- Observed (true_time, false_time) measurement of one entry, when its
payloads render. -/
def timedMeasureOf (measure : String → Rat) (working delay : String) (inj : Injection) :
    Option (Rat × Rat) :=
  (renderTimedPair inj working delay).map (fun p => (measure p.1, measure p.2))

/-- Best-pair fold: keep the pair with the strictly largest first
component, first winner kept on ties. -/
def bestPairFold (ps : List (Rat × Rat)) (b : Rat × Rat) : Rat × Rat :=
  ps.foldl (fun acc p => if acc.1 < p.1 then p else acc) b

/-- Number of positions at which `pat` occurs as a substring of `l`
(overlapping occurrences counted, as Python `str.count` would for the
patterns used here, which cannot overlap themselves). -/
def patOcc (pat : List Char) : List Char → Nat
  | [] => 0
  | c :: cs => patOcc pat cs + (if pat.isPrefixOf (c :: cs) then 1 else 0)

/-- The substring counted by the delay-payload claim: `count((//.)`. -/
def delayPat : List Char :=
  ['c', 'o', 'u', 'n', 't', '(', '(', '/', '/', '.', ')']

/-- Characters of the wrap prefix `count((//.)[`. -/
def delayPre : List Char :=
  ['c', 'o', 'u', 'n', 't', '(', '(', '/', '/', '.', ')', '[']

/-- Characters of the innermost delay payload `count((//.))`. -/
def delayBase : List Char :=
  ['c', 'o', 'u', 'n', 't', '(', '(', '/', '/', '.', ')', ')']

/-- `m` copies of the wrap suffix `])`. -/
def delaySufRep : Nat → List Char
  | 0 => []
  | m + 1 => ']' :: ')' :: delaySufRep m

/-- Character-list mirror of `delayAux`. -/
def delayAuxL : Nat → List Char
  | 0 => delayBase
  | n + 1 => delayPre ++ delayAuxL n ++ [']', ')']

/-- Hard depth limit of the in-band DFS (src/xcat/inband.py). -/
def _MAX_DEPTH : Nat := 20

/-- Hard per-node child limit of the in-band DFS. -/
def _MAX_CHILDREN : Nat := 500

/-- Hard total request limit of the in-band DFS. -/
def _MAX_REQUESTS : Nat := 5000

/-- The slice of the attack context read by src/xcat/inband.py. -/
structure InbandCtx where
  target_parameter : String
  parameters : List (String × String)
  injection : Injection

/-- Working value of an in-band context (same dict lookup as
`AttackContext.target_parameter_value`). -/
def InbandCtx.target_parameter_value (ctx : InbandCtx) : String :=
  (ctx.parameters.lookup ctx.target_parameter).getD ""

/-- `_make_union_overrides` of src/xcat/inband.py: rewrite every non-target
parameter to `value | xpath`. -/
def _make_union_overrides (ctx : InbandCtx) (xpath : String) : List (String × String) :=
  ctx.parameters.filterMap
    (fun kv =>
      if kv.1 != ctx.target_parameter then some (kv.1, kv.2 ++ " | " ++ xpath) else none)

/-- Loop of `_tree_traverse` (src/xcat/inband.py).  `probe` abstracts
`get_response_with_match(context, false_payload, overrides(path))` as a
function of the probed path; `extractDiff` abstracts
`extract_text_from_diff`.  The stack is kept head-as-top.  Besides the
extracted lines and the request counter the function returns, as a ghost
output, the list of stack entries for which a request was actually made.
Totality is by the same measure that bounds the source loop: the remaining
request budget, then the stack height. -/
def tree_loop (probe : String → String × Bool) (extractDiff : String → String → List String)
    (results_body : String) (stack : List (String × Nat × Nat)) (requests : Nat)
    (all_text : List String) (probed : List (String × Nat × Nat)) :
    List String × Nat × List (String × Nat × Nat) :=
  match stack with
  | [] => (all_text, requests, probed)
  | (parent_path, child_idx, depth) :: rest =>
    if _MAX_REQUESTS ≤ requests then
      (all_text, requests, probed)
    else if _MAX_DEPTH < depth ∨ _MAX_CHILDREN < child_idx then
      tree_loop probe extractDiff results_body rest requests all_text probed
    else if (probe (parent_path ++ "/*[" ++ toString child_idx ++ "]")).2 = false then
      tree_loop probe extractDiff results_body rest (requests + 1) all_text
        (probed ++ [(parent_path, child_idx, depth)])
    else if (extractDiff results_body (probe (parent_path ++ "/*[" ++ toString child_idx ++ "]")).1).isEmpty then
      tree_loop probe extractDiff results_body
        ((parent_path ++ "/*[" ++ toString child_idx ++ "]", 1, depth + 1)
          :: (parent_path, child_idx + 1, depth) :: rest)
        (requests + 1) all_text (probed ++ [(parent_path, child_idx, depth)])
    else
      tree_loop probe extractDiff results_body
        ((parent_path, child_idx + 1, depth) :: rest)
        (requests + 1)
        (all_text ++ extractDiff results_body (probe (parent_path ++ "/*[" ++ toString child_idx ++ "]")).1)
        (probed ++ [(parent_path, child_idx, depth)])
termination_by (_MAX_REQUESTS - requests, stack.length)
decreasing_by
  all_goals simp_wf
  all_goals first
    | (apply Prod.Lex.left; omega)
    | (apply Prod.Lex.right; omega)

/-- `_tree_traverse` of src/xcat/inband.py: one results-baseline request
for the root element, then the DFS loop seeded with `("/*[1]", 1, 1)`.
`respond` abstracts `get_response_with_match` as a function of the raw
target value and the parameter overrides; `false_body` is received but,
as in the source, unused. -/
def _tree_traverse (ctx : InbandCtx)
    (respond : String → List (String × String) → String × Bool)
    (extractDiff : String → String → List String)
    (false_payload _false_body : String) :
    List String × Nat × List (String × Nat × Nat) :=
  let probe := fun path => respond false_payload (_make_union_overrides ctx path)
  let results := probe "/*[1]"
  if results.2 = false then
    ([], 1, [])
  else
    tree_loop probe extractDiff results.1 [("/*[1]", 1, 1)] 1 [] []

/-- Phase-1 union rewrites of `inband_extract` (src/xcat/inband.py): every
non-target parameter becomes `value | //text()`. -/
def inband_union_overrides (ctx : InbandCtx) : List (String × String) :=
  ctx.parameters.filterMap
    (fun kv =>
      if kv.1 != ctx.target_parameter then some (kv.1, kv.2 ++ " | //text()") else none)

/-- Observable intermediate values of one `inband_extract` run
(src/xcat/inband.py), recorded so the phase logic can be stated. -/
structure InbandTrace where
  false_payload : String
  all_data_payload : String
  has_union_params : Bool
  union_overrides : Option (List (String × String))
  basic_lines : List String
  union_lines : List String
  diff_lines : List String
  did_dfs : Bool
  tree_lines : List String
  result : Option (List String)

/-- `inband_extract` of src/xcat/inband.py.  `respond` abstracts
`get_response_with_match` (body and match verdict as a function of the raw
target value and the parameter overrides; `get_response_body` is its first
component), `extractDiff` abstracts `extract_text_from_diff`.  A `.error`
models the `StopIteration` that `next(...)` raises when the injection has
no false (resp. no true) test payload; catalog entries always have both. -/
def inband_extract (ctx : InbandCtx)
    (respond : String → List (String × String) → String × Bool)
    (extractDiff : String → String → List String) : Except Unit InbandTrace :=
  let working := ctx.target_parameter_value
  let test_payloads := ctx.injection.test_payloads working
  match test_payloads.find? (fun pe => !pe.2) with
  | none => .error ()
  | some fpe =>
    let false_payload := fpe.1
    let all_data? : Option String :=
      match ctx.injection.render working (.raw "true() or true()") with
      | some p => some p
      | none => (test_payloads.find? (fun pe => pe.2)).map (fun pe => pe.1)
    match all_data? with
    | none => .error ()
    | some all_data_payload =>
      let false_body := (respond false_payload []).1
      let basic_body := (respond all_data_payload []).1
      let has_union_params := ctx.parameters.any (fun kv => kv.1 != ctx.target_parameter)
      let union_overrides : Option (List (String × String)) :=
        if has_union_params then some (inband_union_overrides ctx) else none
      let union_body :=
        match union_overrides with
        | some ov => (respond all_data_payload ov).1
        | none => basic_body
      let basic_lines := extractDiff false_body basic_body
      let union_lines := extractDiff false_body union_body
      let diff_lines := if basic_lines.length < union_lines.length then union_lines else basic_lines
      let did_dfs := has_union_params && decide (diff_lines.length < 50)
      let tree :=
        if did_dfs then _tree_traverse ctx respond extractDiff false_payload false_body
        else ([], 0, [])
      let tree_lines := tree.1
      let result : Option (List String) :=
        if did_dfs && decide (diff_lines.length < tree_lines.length) then some tree_lines
        else if diff_lines.isEmpty then none
        else some diff_lines
      .ok
        { false_payload := false_payload
          all_data_payload := all_data_payload
          has_union_params := has_union_params
          union_overrides := union_overrides
          basic_lines := basic_lines
          union_lines := union_lines
          diff_lines := diff_lines
          did_dfs := did_dfs
          tree_lines := tree_lines
          result := result }

/-- The `Encoding` enum of src/xcat/attack.py. -/
inductive Encoding
  | url
  | form
  deriving DecidableEq, Repr

/-- A Python runtime value as far as the `encode != 'url'` comparison in
src/xcat/cli.py is concerned: either an `Encoding` enum member or a `str`. -/
inductive PyValue
  | enc (e : Encoding)
  | str (s : String)

/-- Python `==` on such values: `enum.Enum` members compare by identity
and are never equal to a plain string, strings compare by content. -/
def pyEq : PyValue → PyValue → Bool
  | .enc a, .enc b => a == b
  | .str a, .str b => a == b
  | _, _ => false

/-- The `--body` validation of `attack_options` (src/xcat/cli.py line 60):
`if body and encode != 'url': ctx.fail(...)`.  `encode` is an `Encoding`
member by the time the check runs (modelled from the spec: `utils.EnumType`,
which lives outside src/, converts the CLI string to the enum; the
`context.encoding == Encoding.URL` dispatch in src/xcat/attack.py relies on
exactly that).  Returns `true` when the CLI call is rejected with exit
code 2. -/
def body_check_rejects (bodyGiven : Bool) (encode : Encoding) : Bool :=
  bodyGiven && !(pyEq (.enc encode) (.str "url"))

/-- Concrete oracle of spec scenario 1: with `--true-string Kings` against
the mock victim, exactly the probe `Bible and 1=1` answers true. -/
def oracle_kings : String → Bool := fun s => s == "Bible and 1=1"

/-- Degenerate oracle answering true on every probe. -/
def oracle_always_true : String → Bool := fun _ => true

/-- OOB test runner without OOB details: both callables answer false. -/
def oob_resolve_false : String → Bool := fun _ => false

/-- Concrete timing measurement for the timed-detection witness: the
rendered true payload of the `integer` entry takes 3 seconds, everything
else returns immediately. -/
def measure_scenario : String → Rat :=
  fun s => if s == "Bible and true() and count((//.))" then 3 else 0

/-- Boolean-mode context without a selected injection (the state during
injection detection). -/
def ctx_plain : Ctx :=
  { target_parameter := "q"
    parameters := [("q", "Bible")]
    match_function := fun _ _ => false
    time_based := false
    time_delay_expr := none
    time_threshold := 0
    injection := none }

/-- Time-based context with the `integer` injection selected and a
one-level delay payload. -/
def ctx_timed : Ctx :=
  { target_parameter := "q"
    parameters := [("q", "Bible")]
    match_function := fun _ _ => false
    time_based := true
    time_delay_expr := some "count((//.))"
    time_threshold := 0
    injection := some injection_integer }

/-- Transport on which every attempt fails. -/
def transport_fail : Nat → TransportResult := fun _ => .failure

/-- Transport on which the first attempt fails and a retry would have
succeeded. -/
def transport_fail_then_ok : Nat → TransportResult :=
  fun n => if n == 0 then .failure else .ok 200 "Kings" 0

/-- Transport answering 200 with an empty body after 5 seconds. -/
def transport_ok : Nat → TransportResult := fun _ => .ok 200 "" 5

/-- Probe on which every path misses (responses empty, match false). -/
def respond_none : String → List (String × String) → String × Bool :=
  fun _ _ => ("", false)

/-- Diff helper extracting nothing. -/
def diff_none : String → String → List String := fun _ _ => []

/-- Single-parameter in-band context: no union parameters exist. -/
def ctx_inband_single : InbandCtx :=
  { target_parameter := "q"
    parameters := [("q", "Bible")]
    injection := injection_integer }

/-- Occurrence counting steps over the wrap prefix `count((//.)[`: the
pattern `count((//.)` matches exactly at its head and nowhere else inside
it, whatever follows. -/
theorem patOcc_pre (rest : List Char) :
    patOcc delayPat (delayPre ++ rest) = patOcc delayPat rest + 1 := rfl

/-- Occurrence counting steps over the innermost payload `count((//.))`
the same way. -/
theorem patOcc_base (rest : List Char) :
    patOcc delayPat (delayBase ++ rest) = patOcc delayPat rest + 1 := rfl

/-- No occurrence of `count((//.)` inside a run of closing `])` pairs. -/
theorem patOcc_sufRep (m : Nat) : patOcc delayPat (delaySufRep m) = 0 := by
  induction m with
  | zero => rfl
  | succ m ih => simpa [delaySufRep, patOcc, List.isPrefixOf] using ih

/-- The string built by `delayAux` has the characters of `delayAuxL`. -/
theorem delayAux_data (n : Nat) : (delayAux n).data = delayAuxL n := by
  induction n with
  | zero => rfl
  | succ n ih =>
    show ("count((//.)[" ++ delayAux n ++ "])").data = delayPre ++ delayAuxL n ++ [']', ')']
    rw [← ih]
    rfl

/-- Occurrence count of `count((//.)` in the `n`-fold wrap followed by any
run of closing pairs. -/
theorem patOcc_delayAuxL_sufRep (n : Nat) :
    ∀ m, patOcc delayPat (delayAuxL n ++ delaySufRep m) = n + 1 := by
  induction n with
  | zero =>
    intro m
    rw [show delayAuxL 0 = delayBase from rfl, patOcc_base, patOcc_sufRep]
  | succ n ih =>
    intro m
    have hassoc : delayAuxL (n + 1) ++ delaySufRep m
        = delayPre ++ (delayAuxL n ++ delaySufRep (m + 1)) := by
      show (delayPre ++ delayAuxL n ++ [']', ')']) ++ delaySufRep m = _
      simp [delaySufRep]
    rw [hassoc, patOcc_pre, ih (m + 1)]

/-- Occurrence count of `count((//.)` in the `n`-fold wrap. -/
theorem patOcc_delayAuxL (n : Nat) : patOcc delayPat (delayAuxL n) = n + 1 := by
  have := patOcc_delayAuxL_sufRep n 0
  simpa [delaySufRep] using this

/-- `feature_enabled` in conjunctive normal form: positives all pass, and
either there are no false tests or none of them answers true. -/
theorem feature_enabled_eq (oracle oobResolve : String → Bool) (f : Feature) :
    feature_enabled oracle oobResolve f
      = (f.tests.all (fun t => t.resolve oracle oobResolve)
          && (f.false_tests.isEmpty || !(f.false_tests.any oracle))) := by
  unfold feature_enabled
  cases hp : f.tests.all (fun t => t.resolve oracle oobResolve) <;>
    cases he : f.false_tests.isEmpty <;> simp [hp, he]

/-- Propositional characterization of `feature_enabled`. -/
theorem feature_enabled_iff (oracle oobResolve : String → Bool) (f : Feature) :
    feature_enabled oracle oobResolve f = true ↔
      (∀ t ∈ f.tests, t.resolve oracle oobResolve = true) ∧
      (f.false_tests ≠ [] → ∀ s ∈ f.false_tests, oracle s = false) := by
  rw [feature_enabled_eq]
  simp only [Bool.and_eq_true, Bool.or_eq_true, List.all_eq_true, List.isEmpty_iff,
    Bool.not_eq_true', List.any_eq_false]
  constructor
  · rintro ⟨hall, hor⟩
    refine ⟨hall, fun hne s hs => ?_⟩
    have := hor.resolve_left hne s hs
    simp only [Bool.not_eq_true] at this
    exact this
  · rintro ⟨hall, himp⟩
    refine ⟨hall, ?_⟩
    by_cases hft : f.false_tests = []
    · exact Or.inl hft
    · refine Or.inr (fun s hs => ?_)
      simp only [Bool.not_eq_true]
      exact himp hft s hs

/-- Membership in the `detect_features` report determines the flag. -/
theorem detect_features_pair_mem (oracle oobResolve : String → Bool) (f : Feature) (b : Bool) :
    (f, b) ∈ detect_features oracle oobResolve ↔
      f ∈ features ∧ feature_enabled oracle oobResolve f = b := by
  constructor
  · intro h
    rcases List.mem_map.mp h with ⟨f', hf', heq⟩
    rw [Prod.mk.injEq] at heq
    rcases heq with ⟨rfl, rfl⟩
    exact ⟨hf', rfl⟩
  · rintro ⟨hf, hb⟩
    exact List.mem_map.mpr ⟨f, hf, by rw [hb]⟩

/-- A false test answering true forces the feature off. -/
theorem feature_enabled_false_of_false_test (oracle oobResolve : String → Bool) (f : Feature)
    (s : String) (hs : s ∈ f.false_tests) (htrue : oracle s = true) :
    feature_enabled oracle oobResolve f = false := by
  rcases hb : feature_enabled oracle oobResolve f with _ | _
  · rfl
  · exfalso
    rcases (feature_enabled_iff oracle oobResolve f).mp hb with ⟨-, himp⟩
    have hne : f.false_tests ≠ [] := by
      intro hnil
      rw [hnil] at hs
      exact absurd hs (List.not_mem_nil s)
    have := himp hne s hs
    rw [htrue] at this
    simp at this

/-- The timed-detection loop keeps exactly the catalog entries passing the
acceptance test, in order. -/
theorem timed_foldl_detected (m : String → Rat) (w d : String) :
    ∀ (l : List Injection) (acc : TimedAcc),
      (l.foldl (timedStep m w d) acc).detected
        = acc.detected ++ l.filter (timedAcceptsB m w d) := by
  intro l
  induction l with
  | nil => intro acc; simp
  | cons inj rest ih =>
    intro acc
    rw [List.foldl_cons, ih]
    rcases hr : renderTimedPair inj w d with _ | ⟨tp, fp⟩
    · simp [timedStep, hr, timedAcceptsB, List.filter_cons]
    · by_cases hc : m fp * 2 < m tp ∧ 1 < m tp
      · simp [timedStep, hr, timedAcceptsB, List.filter_cons, hc]
      · simp [timedStep, hr, timedAcceptsB, List.filter_cons, hc]

/-- One step of the best-pair fold. -/
theorem bestPairFold_cons (p : Rat × Rat) (ps : List (Rat × Rat)) (b : Rat × Rat) :
    bestPairFold (p :: ps) b = bestPairFold ps (if b.1 < p.1 then p else b) := by
  simp [bestPairFold]

/-- The best-pair registers of the timed-detection loop follow
`bestPairFold` over the measurements of the accepted entries. -/
theorem timed_foldl_best (m : String → Rat) (w d : String) :
    ∀ (l : List Injection) (acc : TimedAcc),
      ((l.foldl (timedStep m w d) acc).best_true_time,
        (l.foldl (timedStep m w d) acc).best_false_time)
        = bestPairFold
            ((l.filter (timedAcceptsB m w d)).filterMap (timedMeasureOf m w d))
            (acc.best_true_time, acc.best_false_time) := by
  intro l
  induction l with
  | nil => intro acc; simp [bestPairFold]
  | cons inj rest ih =>
    intro acc
    rw [List.foldl_cons, ih]
    rcases hr : renderTimedPair inj w d with _ | ⟨tp, fp⟩
    · have hrej : timedAcceptsB m w d inj = false := by
        simp [timedAcceptsB, hr]
      have hstep : timedStep m w d acc inj = acc := by
        simp [timedStep, hr]
      rw [hstep]
      simp [List.filter_cons, hrej]
    · by_cases hc : m fp * 2 < m tp ∧ 1 < m tp
      · have haccept : timedAcceptsB m w d inj = true := by
          simp [timedAcceptsB, hr, hc]
        have hstep : timedStep m w d acc inj
            = { detected := acc.detected ++ [inj]
                best_true_time := if acc.best_true_time < m tp then m tp else acc.best_true_time
                best_false_time := if acc.best_true_time < m tp then m fp else acc.best_false_time } := by
          rw [timedStep, hr]
          simp [hc]
        have hfil : (inj :: rest).filter (timedAcceptsB m w d)
            = inj :: rest.filter (timedAcceptsB m w d) := by
          simp [List.filter_cons, haccept]
        have hmap : ((inj :: rest).filter (timedAcceptsB m w d)).filterMap (timedMeasureOf m w d)
            = (m tp, m fp) :: (rest.filter (timedAcceptsB m w d)).filterMap (timedMeasureOf m w d) := by
          rw [hfil]
          simp [timedMeasureOf, hr]
        rw [hstep, hmap, bestPairFold_cons]
        by_cases hb : acc.best_true_time < m tp
        · simp [hb]
        · simp [hb]
      · have hrej : timedAcceptsB m w d inj = false := by
          simp [timedAcceptsB, hr, hc]
        have hstep : timedStep m w d acc inj = acc := by
          rw [timedStep, hr]
          simp [hc]
        rw [hstep]
        simp [List.filter_cons, hrej]

/-- The best-pair fold returns its seed or one of the listed pairs. -/
theorem bestPairFold_mem :
    ∀ (ps : List (Rat × Rat)) (b : Rat × Rat),
      bestPairFold ps b = b ∨ bestPairFold ps b ∈ ps := by
  intro ps
  induction ps with
  | nil => intro b; left; rfl
  | cons p rest ih =>
    intro b
    rw [bestPairFold_cons]
    rcases ih (if b.1 < p.1 then p else b) with h | h
    · rw [h]
      by_cases hc : b.1 < p.1
      · right; simp [hc]
      · left; simp [hc]
    · right; exact List.mem_cons_of_mem _ h

/-- The seed never beats the best-pair fold on the first component. -/
theorem bestPairFold_fst_le :
    ∀ (ps : List (Rat × Rat)) (b : Rat × Rat), b.1 ≤ (bestPairFold ps b).1 := by
  intro ps
  induction ps with
  | nil => intro b; exact le_refl _
  | cons p rest ih =>
    intro b
    rw [bestPairFold_cons]
    refine le_trans ?_ (ih (if b.1 < p.1 then p else b))
    by_cases hc : b.1 < p.1
    · simp [hc]
      exact le_of_lt hc
    · simp [hc]

/-- No listed pair beats the best-pair fold on the first component. -/
theorem bestPairFold_mem_le :
    ∀ (ps : List (Rat × Rat)) (b : Rat × Rat) (p : Rat × Rat),
      p ∈ ps → p.1 ≤ (bestPairFold ps b).1 := by
  intro ps
  induction ps with
  | nil => intro b p hp; exact absurd hp (List.not_mem_nil p)
  | cons q rest ih =>
    intro b p hp
    rw [bestPairFold_cons]
    rcases List.mem_cons.mp hp with rfl | hp
    · refine le_trans ?_ (bestPairFold_fst_le rest (if b.1 < p.1 then p else b))
      by_cases hc : b.1 < p.1
      · simp [hc]
      · simp [hc]
        exact le_of_not_lt hc
    · exact ih (if b.1 < q.1 then q else b) p hp

/-- The DFS loop never pushes the request counter past the budget. -/
theorem tree_loop_requests_le (probe : String → String × Bool)
    (extractDiff : String → String → List String) (results_body : String)
    (stack : List (String × Nat × Nat)) (requests : Nat)
    (all_text : List String) (probed : List (String × Nat × Nat))
    (h : requests ≤ _MAX_REQUESTS) :
    (tree_loop probe extractDiff results_body stack requests all_text probed).2.1
      ≤ _MAX_REQUESTS := by
  induction stack, requests, all_text, probed
    using tree_loop.induct probe extractDiff results_body with
  | case1 requests all_text probed =>
    simpa [tree_loop] using h
  | case2 parent_path child_idx depth rest requests all_text probed hge =>
    rw [tree_loop]
    simp only [hge, if_true]
    omega
  | case3 parent_path child_idx depth rest requests all_text probed hge hskip ih =>
    rw [tree_loop]
    simp only [hge, hskip, if_true, if_false]
    exact ih h
  | case4 parent_path child_idx depth rest requests all_text probed hge hskip hm ih =>
    rw [tree_loop]
    simp only [hge, hskip, hm, if_true, if_false]
    exact ih (by omega)
  | case5 parent_path child_idx depth rest requests all_text probed hge hskip hm hempty ih =>
    rw [tree_loop]
    simp only [hge, hskip, hm, hempty, if_true, if_false]
    exact ih (by omega)
  | case6 parent_path child_idx depth rest requests all_text probed hge hskip hm hempty ih =>
    rw [tree_loop]
    simp only [hge, hskip, hm, hempty, if_true, if_false]
    exact ih (by omega)

/-- Every stack entry the DFS loop actually probes respects the depth and
child-index bounds (entries past a bound are dropped before any request). -/
theorem tree_loop_probed_bounds (probe : String → String × Bool)
    (extractDiff : String → String → List String) (results_body : String)
    (stack : List (String × Nat × Nat)) (requests : Nat)
    (all_text : List String) (probed : List (String × Nat × Nat))
    (h : ∀ e ∈ probed, e.2.2 ≤ _MAX_DEPTH ∧ e.2.1 ≤ _MAX_CHILDREN) :
    ∀ e ∈ (tree_loop probe extractDiff results_body stack requests all_text probed).2.2,
      e.2.2 ≤ _MAX_DEPTH ∧ e.2.1 ≤ _MAX_CHILDREN := by
  induction stack, requests, all_text, probed
    using tree_loop.induct probe extractDiff results_body with
  | case1 requests all_text probed =>
    simpa [tree_loop] using h
  | case2 parent_path child_idx depth rest requests all_text probed hge =>
    rw [tree_loop]
    simp only [hge, if_true]
    exact h
  | case3 parent_path child_idx depth rest requests all_text probed hge hskip ih =>
    rw [tree_loop]
    simp only [hge, hskip, if_true, if_false]
    exact ih h
  | case4 parent_path child_idx depth rest requests all_text probed hge hskip hm ih =>
    rw [tree_loop]
    simp only [hge, hskip, hm, if_true, if_false]
    refine ih ?_
    intro e he
    rcases List.mem_append.mp he with he | he
    · exact h e he
    · simp only [List.mem_singleton] at he
      subst he
      simp only [not_or, not_lt] at hskip
      exact ⟨hskip.1, hskip.2⟩
  | case5 parent_path child_idx depth rest requests all_text probed hge hskip hm hempty ih =>
    rw [tree_loop]
    simp only [hge, hskip, hm, hempty, if_true, if_false]
    refine ih ?_
    intro e he
    rcases List.mem_append.mp he with he | he
    · exact h e he
    · simp only [List.mem_singleton] at he
      subst he
      simp only [not_or, not_lt] at hskip
      exact ⟨hskip.1, hskip.2⟩
  | case6 parent_path child_idx depth rest requests all_text probed hge hskip hm hempty ih =>
    rw [tree_loop]
    simp only [hge, hskip, hm, hempty, if_true, if_false]
    refine ih ?_
    intro e he
    rcases List.mem_append.mp he with he | he
    · exact h e he
    · simp only [List.mem_singleton] at he
      subst he
      simp only [not_or, not_lt] at hskip
      exact ⟨hskip.1, hskip.2⟩

/-- Claim C1: for every feature in the catalog and every oracle,
`detect_features` reports the feature enabled iff every positive test
resolves true and, when `false_tests` is non-empty, no false test resolves
true; in particular any false test resolving true forces the feature to be
reported disabled. -/
theorem detect_features_spec (oracle oobResolve : String → Bool) (f : Feature)
    (hf : f ∈ features) :
    ((f, true) ∈ detect_features oracle oobResolve ↔
      (∀ t ∈ f.tests, t.resolve oracle oobResolve = true) ∧
      (f.false_tests ≠ [] → ∀ s ∈ f.false_tests, oracle s = false)) ∧
    (∀ s ∈ f.false_tests, oracle s = true →
      (f, false) ∈ detect_features oracle oobResolve) := by
  constructor
  · rw [detect_features_pair_mem, feature_enabled_iff]
    simp [hf]
  · intro s hs htrue
    rw [detect_features_pair_mem]
    exact ⟨hf, feature_enabled_false_of_false_test oracle oobResolve f s hs htrue⟩

/-- Witness for C1: the claim instantiated at `xpath-2` and the degenerate
always-true oracle. -/
theorem detect_features_spec_witness :
    feature_xpath_2 ∈ features ∧
    (((feature_xpath_2, true) ∈ detect_features oracle_always_true oob_resolve_false ↔
        (∀ t ∈ feature_xpath_2.tests, t.resolve oracle_always_true oob_resolve_false = true) ∧
        (feature_xpath_2.false_tests ≠ [] →
          ∀ s ∈ feature_xpath_2.false_tests, oracle_always_true s = false)) ∧
      (∀ s ∈ feature_xpath_2.false_tests, oracle_always_true s = true →
        (feature_xpath_2, false) ∈ detect_features oracle_always_true oob_resolve_false)) :=
  ⟨List.mem_cons_self _ _,
    detect_features_spec oracle_always_true oob_resolve_false feature_xpath_2
      (List.mem_cons_self _ _)⟩

/-- Claim C2: boolean injection detection returns exactly the catalog
entries whose whole rendered-probe result vector matches the expected
booleans, and nothing outside the catalog. -/
theorem detect_injections_mem_iff (oracle : String → Bool) (working : String) (inj : Injection) :
    inj ∈ detect_injections oracle working ↔
      inj ∈ injectors ∧ ∀ pe ∈ inj.test_payloads working, oracle pe.1 = pe.2 := by
  simp [detect_injections, List.mem_filter, List.all_eq_true]

/-- Witness for C2: the claim instantiated at the `integer` entry and the
scenario-1 oracle. -/
theorem detect_injections_mem_iff_witness :
    injection_integer ∈ detect_injections oracle_kings "Bible" ↔
      injection_integer ∈ injectors ∧
        ∀ pe ∈ injection_integer.test_payloads "Bible", oracle_kings pe.1 = pe.2 :=
  detect_injections_mem_iff oracle_kings "Bible" injection_integer

/-- Claim C6: for k ≥ 1 the delay payload contains exactly k occurrences
of `count((//.)` and satisfies the wire-form recurrence. -/
theorem make_delay_payload_spec (k : Int) (hk : 1 ≤ k) :
    patOcc delayPat (make_delay_payload k).data = k.toNat ∧
    make_delay_payload 1 = "count((//.))" ∧
    (1 < k → make_delay_payload k = "count((//.)[" ++ make_delay_payload (k - 1) ++ "])") := by
  refine ⟨?_, rfl, ?_⟩
  · rw [make_delay_payload, delayAux_data, patOcc_delayAuxL]
    omega
  · intro hk1
    have h2 : (k - 1).toNat = (k - 1 - 1).toNat + 1 := by omega
    rw [make_delay_payload, make_delay_payload, h2]
    rfl

/-- Witness for C6: the claim evaluated at nesting 3. -/
theorem make_delay_payload_spec_witness :
    (1 : Int) ≤ 3 ∧
      (patOcc delayPat (make_delay_payload 3).data = (3 : Int).toNat ∧
        make_delay_payload 1 = "count((//.))" ∧
        (1 < (3 : Int) →
          make_delay_payload 3 = "count((//.)[" ++ make_delay_payload (3 - 1) ++ "])")) :=
  ⟨by decide, make_delay_payload_spec 3 (by decide)⟩

/-- Claim C9 (code behaviour at the failing input): the `--body`
validation compares the `Encoding` enum member against the string `url`,
which is never equal in Python, so a request body is rejected for every
encoding — including URL encoding, which the claim (and the check's own
error message) says must be accepted. -/
theorem body_check_rejects_url_body :
    body_check_rejects true Encoding.url = true ∧
    (∀ e : Encoding, body_check_rejects true e = true) ∧
    body_check_rejects false Encoding.form = false := by
  refine ⟨rfl, ?_, rfl⟩
  intro e
  cases e <;> rfl

/-- Claim C10: for every k ≤ 1, including zero and negatives,
`make_delay_payload` returns the nesting-1 payload and never raises. -/
theorem make_delay_payload_nonpositive (k : Int) (hk : k ≤ 1) :
    make_delay_payload k = "count((//.))" ∧ make_delay_payload k = make_delay_payload 1 := by
  have h0 : (k - 1).toNat = 0 := by omega
  rw [make_delay_payload, h0]
  exact ⟨rfl, rfl⟩

/-- Witness for C10: the claim evaluated at -5 and at 0. -/
theorem make_delay_payload_nonpositive_witness :
    ((-5 : Int) ≤ 1 ∧
      (make_delay_payload (-5) = "count((//.))" ∧
        make_delay_payload (-5) = make_delay_payload 1)) ∧
    ((0 : Int) ≤ 1 ∧ make_delay_payload 0 = "count((//.))") :=
  ⟨⟨by decide, make_delay_payload_nonpositive (-5) (by decide)⟩,
   by decide, (make_delay_payload_nonpositive 0 (by decide)).1⟩

/-- Claim C4, counterexample: in time-based mode `check` wraps the probe
WITHOUT parentheses — `{probe} and {delay}` — so for a probe containing an
`or` the value actually sent differs from the claimed parenthesized wire
form `({probe}) and {delay}`. -/
theorem check_timed_wire_counterexample :
    (check ctx_timed (.expr "false() or true()") transport_ok).sent
        = some "Bible and false() or true() and count((//.))" ∧
    injection_integer.render "Bible"
        (.expr (claimed_timed_wire "false() or true()" "count((//.))"))
        = some "Bible and (false() or true()) and count((//.))" ∧
    "Bible and false() or true() and count((//.))"
        ≠ "Bible and (false() or true()) and count((//.))" := by
  refine ⟨rfl, rfl, ?_⟩
  decide

/-- Claim C4 (amended): in time-based mode `check` renders the injection
with the unparenthesized wire expression `{probe} and {delay_expr}` and,
when the request succeeds, answers true iff the elapsed time reaches the
context threshold. -/
theorem check_timed_spec (ctx : Ctx) (inj : Injection) (payload : ExprArg)
    (transport : Nat → TransportResult) (v : String) (status : Nat) (body : String)
    (elapsed : Rat)
    (htb : ctx.time_based = true) (hinj : ctx.injection = some inj)
    (hrend : inj.render ctx.target_parameter_value
        (ExprArg.expr (payload.wire ++ " and " ++ pyStrOpt ctx.time_delay_expr)) = some v)
    (htr : transport 0 = .ok status body elapsed) :
    (check ctx payload transport).sent = some v ∧
    (check ctx payload transport).result = .ok (decide (ctx.time_threshold ≤ elapsed)) := by
  have h1 : check_rendered ctx payload = some v := by
    rw [check_rendered, hinj]
    simp [htb, hrend]
  rw [check, h1, htr]
  simp [htb]

/-- Witness for C4 (amended): the `integer` injection, probe `true()`,
one-level delay, a 5-second response against threshold 0. -/
theorem check_timed_spec_witness :
    ctx_timed.time_based = true ∧
    ctx_timed.injection = some injection_integer ∧
    injection_integer.render ctx_timed.target_parameter_value
        (ExprArg.expr ((ExprArg.expr "true()").wire ++ " and " ++ pyStrOpt ctx_timed.time_delay_expr))
        = some "Bible and true() and count((//.))" ∧
    transport_ok 0 = .ok 200 "" 5 ∧
    ((check ctx_timed (.expr "true()") transport_ok).sent
        = some "Bible and true() and count((//.))" ∧
      (check ctx_timed (.expr "true()") transport_ok).result
        = .ok (decide (ctx_timed.time_threshold ≤ 5))) :=
  ⟨rfl, rfl, rfl, rfl,
    check_timed_spec ctx_timed injection_integer (.expr "true()") transport_ok
      "Bible and true() and count((//.))" 200 "" 5 rfl rfl rfl rfl⟩

/-- Claim C5, counterexample: a failed request is NOT retried — `check`
attempts exactly one request, and the failure surfaces as a propagated
exception rather than a false oracle answer, even though a second attempt
would have succeeded. -/
theorem check_no_retry_counterexample :
    (check ctx_plain (.raw "Bible and 1=1") transport_fail_then_ok).requests = 1 ∧
    (check ctx_plain (.raw "Bible and 1=1") transport_fail_then_ok).result = .error () ∧
    transport_fail_then_ok 1 = .ok 200 "Kings" 0 ∧
    (check ctx_plain (.raw "Bible and 1=1") transport_fail_then_ok).requests ≠ 2 := by
  refine ⟨rfl, rfl, rfl, ?_⟩
  decide

/-- Claim C5 (amended): the oracle primitives never retry — each call of
`check` attempts at most one physical request (exactly one once the payload
renders) and each call of `timed_request` exactly one; a transport failure
propagates as an exception instead of being reported as a false answer. -/
theorem oracle_primitives_no_retry (ctx : Ctx) (payload : ExprArg) (raw : String)
    (transport : Nat → TransportResult) :
    (check ctx payload transport).requests ≤ 1 ∧
    (transport 0 = .failure → (check ctx payload transport).result = .error ()) ∧
    (timed_request ctx raw transport).2.2 = 1 ∧
    (transport 0 = .failure → (timed_request ctx raw transport).2.1 = .error ()) := by
  refine ⟨?_, ?_, ?_, ?_⟩
  · rcases hrend : check_rendered ctx payload with _ | v
    · simp [check, hrend]
    · rcases h0 : transport 0 with ⟨s, b, e⟩ | _ <;> simp [check, hrend, h0]
  · intro hfail
    rcases hrend : check_rendered ctx payload with _ | v <;> simp [check, hrend, hfail]
  · rcases h0 : transport 0 with ⟨s, b, e⟩ | _ <;> simp [timed_request, h0]
  · intro hfail
    simp [timed_request, hfail]

/-- Witness for C5 (amended): instantiated on the all-failing transport. -/
theorem oracle_primitives_no_retry_witness :
    (check ctx_plain (.raw "p") transport_fail).requests ≤ 1 ∧
    (transport_fail 0 = .failure →
      (check ctx_plain (.raw "p") transport_fail).result = .error ()) ∧
    (timed_request ctx_plain "p" transport_fail).2.2 = 1 ∧
    (transport_fail 0 = .failure →
      (timed_request ctx_plain "p" transport_fail).2.1 = .error ()) :=
  oracle_primitives_no_retry ctx_plain (.raw "p") "p" transport_fail

/-- Claim C7: for every context, responder and diff function, the in-band
DFS issues at most 5000 requests in total (baseline included), and every
stack entry it actually probes satisfies the traversal depth bound of 20
(levels below the root element) and the child-index bound of 500; entries
past a bound are dropped without a request, and the traversal is a total
function (its termination measure is the remaining request budget and the
stack height). -/
theorem tree_traverse_bounds (ctx : InbandCtx)
    (respond : String → List (String × String) → String × Bool)
    (extractDiff : String → String → List String) (false_payload false_body : String) :
    (_tree_traverse ctx respond extractDiff false_payload false_body).2.1 ≤ _MAX_REQUESTS ∧
    ∀ e ∈ (_tree_traverse ctx respond extractDiff false_payload false_body).2.2,
      e.2.2 ≤ _MAX_DEPTH ∧ e.2.1 ≤ _MAX_CHILDREN := by
  rw [_tree_traverse]
  by_cases h0 :
      (respond false_payload (_make_union_overrides ctx "/*[1]")).2 = false
  · simp only [h0, if_true]
    constructor
    · decide
    · intro e he
      exact absurd he (List.not_mem_nil e)
  · simp only [h0, if_false]
    constructor
    · exact tree_loop_requests_le _ _ _ _ _ _ _ (by decide)
    · refine tree_loop_probed_bounds _ _ _ _ _ _ _ ?_
      intro e he
      exact absurd he (List.not_mem_nil e)

/-- Witness for C7: the traversal run against a responder that never
matches. -/
theorem tree_traverse_bounds_witness :
    (_tree_traverse ctx_inband_single respond_none diff_none "Bible and 1=2" "").2.1
        ≤ _MAX_REQUESTS ∧
    ∀ e ∈ (_tree_traverse ctx_inband_single respond_none diff_none "Bible and 1=2" "").2.2,
      e.2.2 ≤ _MAX_DEPTH ∧ e.2.1 ≤ _MAX_CHILDREN :=
  tree_traverse_bounds ctx_inband_single respond_none diff_none "Bible and 1=2" ""

/-- Claim C3: for every catalog entry whose payload pair renders without
raising, timed detection accepts the entry iff its measured true time
strictly exceeds both twice its false time and 1.0 s; when nothing is
accepted the threshold is 0.0, and when something is, the threshold is the
midpoint of the measured pair of an accepted entry whose true time is
maximal among all accepted entries. -/
theorem detect_injections_timed_spec (m : String → Rat) (w d : String)
    (inj : Injection) (tp fp : String)
    (hmem : inj ∈ injectors) (hr : renderTimedPair inj w d = some (tp, fp)) :
    (inj ∈ (detect_injections_timed m w d).1 ↔ (m fp * 2 < m tp ∧ 1 < m tp)) ∧
    ((detect_injections_timed m w d).1 = [] → (detect_injections_timed m w d).2 = 0) ∧
    ((detect_injections_timed m w d).1 ≠ [] →
      ∃ binj btp bfp,
        binj ∈ (detect_injections_timed m w d).1 ∧
        renderTimedPair binj w d = some (btp, bfp) ∧
        (detect_injections_timed m w d).2 = (m btp + m bfp) / 2 ∧
        ∀ inj2 tp2 fp2, inj2 ∈ (detect_injections_timed m w d).1 →
          renderTimedPair inj2 w d = some (tp2, fp2) → m tp2 ≤ m btp) := by
  have hdet : (detect_injections_timed m w d).1
      = injectors.filter (timedAcceptsB m w d) := by
    show (injectors.foldl (timedStep m w d)
      { detected := [], best_true_time := 0, best_false_time := 0 }).detected = _
    rw [timed_foldl_detected]
    rfl
  have hbestpair :
      ((injectors.foldl (timedStep m w d)
          { detected := [], best_true_time := 0, best_false_time := 0 }).best_true_time,
        (injectors.foldl (timedStep m w d)
          { detected := [], best_true_time := 0, best_false_time := 0 }).best_false_time)
      = bestPairFold
          ((injectors.filter (timedAcceptsB m w d)).filterMap (timedMeasureOf m w d))
          (0, 0) :=
    timed_foldl_best m w d injectors _
  refine ⟨?_, ?_, ?_⟩
  · rw [hdet, List.mem_filter]
    simp [timedAcceptsB, hr, hmem]
  · intro hnil
    rw [hdet] at hnil
    show (if (injectors.foldl (timedStep m w d)
        { detected := [], best_true_time := 0, best_false_time := 0 }).detected.isEmpty
      then (0 : Rat) else _) = 0
    have : (injectors.foldl (timedStep m w d)
        { detected := [], best_true_time := 0, best_false_time := 0 }).detected.isEmpty = true := by
      rw [show (injectors.foldl (timedStep m w d)
        { detected := [], best_true_time := 0, best_false_time := 0 }).detected
          = injectors.filter (timedAcceptsB m w d) from by rw [timed_foldl_detected]; rfl]
      rw [hnil]
      rfl
    rw [this]
    rfl
  · intro hne
    rw [hdet] at hne
    rcases List.exists_mem_of_ne_nil _ hne with ⟨inj0, hin0⟩
    have hacc0 : timedAcceptsB m w d inj0 = true := (List.mem_filter.mp hin0).2
    rcases hr0 : renderTimedPair inj0 w d with _ | ⟨tp0, fp0⟩
    · rw [timedAcceptsB, hr0] at hacc0
      exact absurd hacc0 (by simp)
    have hp0mem : (m tp0, m fp0)
        ∈ (injectors.filter (timedAcceptsB m w d)).filterMap (timedMeasureOf m w d) := by
      refine List.mem_filterMap.mpr ⟨inj0, hin0, ?_⟩
      rw [timedMeasureOf, hr0]
      rfl
    have hgt1 : ∀ p ∈ (injectors.filter (timedAcceptsB m w d)).filterMap (timedMeasureOf m w d),
        1 < p.1 := by
      intro p hp
      rcases List.mem_filterMap.mp hp with ⟨i, hi, hmo⟩
      have hacci : timedAcceptsB m w d i = true := (List.mem_filter.mp hi).2
      rcases hri : renderTimedPair i w d with _ | ⟨a, b⟩
      · rw [timedMeasureOf, hri] at hmo
        exact absurd hmo (by simp)
      · rw [timedMeasureOf, hri] at hmo
        simp only [Option.map_some', Option.some.injEq] at hmo
        rw [timedAcceptsB, hri] at hacci
        simp only [decide_eq_true_eq] at hacci
        rw [← hmo]
        exact hacci.2
    rcases bestPairFold_mem
        ((injectors.filter (timedAcceptsB m w d)).filterMap (timedMeasureOf m w d)) (0, 0)
      with hzero | hmemb
    · exfalso
      have hle := bestPairFold_mem_le
        ((injectors.filter (timedAcceptsB m w d)).filterMap (timedMeasureOf m w d)) (0, 0)
        (m tp0, m fp0) hp0mem
      rw [hzero] at hle
      have := hgt1 (m tp0, m fp0) hp0mem
      simp only at hle this
      linarith
    · rcases List.mem_filterMap.mp hmemb with ⟨binj, hbinj, hbmo⟩
      rcases hrb : renderTimedPair binj w d with _ | ⟨btp, bfp⟩
      · rw [timedMeasureOf, hrb] at hbmo
        exact absurd hbmo (by simp)
      rw [timedMeasureOf, hrb] at hbmo
      simp only [Option.map_some', Option.some.injEq] at hbmo
      refine ⟨binj, btp, bfp, by rw [hdet]; exact hbinj, hrb, ?_, ?_⟩
      · show (if (injectors.foldl (timedStep m w d)
            { detected := [], best_true_time := 0, best_false_time := 0 }).detected.isEmpty
          then (0 : Rat)
          else ((injectors.foldl (timedStep m w d)
              { detected := [], best_true_time := 0, best_false_time := 0 }).best_true_time
            + (injectors.foldl (timedStep m w d)
              { detected := [], best_true_time := 0, best_false_time := 0 }).best_false_time) / 2)
          = (m btp + m bfp) / 2
        have hempty : (injectors.foldl (timedStep m w d)
            { detected := [], best_true_time := 0, best_false_time := 0 }).detected.isEmpty
            = false := by
          rw [show (injectors.foldl (timedStep m w d)
            { detected := [], best_true_time := 0, best_false_time := 0 }).detected
              = injectors.filter (timedAcceptsB m w d) from by rw [timed_foldl_detected]; rfl]
          rcases hcase : injectors.filter (timedAcceptsB m w d) with _ | ⟨x, xs⟩
          · exact absurd hcase hne
          · rfl
        rw [hempty]
        have h1 := congrArg Prod.fst hbestpair
        have h2 := congrArg Prod.snd hbestpair
        simp only at h1 h2
        rw [if_neg (by simp), h1, h2, ← hbmo]
      · intro inj2 tp2 fp2 h2mem h2r
        rw [hdet] at h2mem
        have hp2mem : (m tp2, m fp2)
            ∈ (injectors.filter (timedAcceptsB m w d)).filterMap (timedMeasureOf m w d) := by
          refine List.mem_filterMap.mpr ⟨inj2, h2mem, ?_⟩
          rw [timedMeasureOf, h2r]
          rfl
        have := bestPairFold_mem_le
          ((injectors.filter (timedAcceptsB m w d)).filterMap (timedMeasureOf m w d)) (0, 0)
          (m tp2, m fp2) hp2mem
        rw [← hbmo] at this
        simpa using this

/-- Witness for C3: the `integer` entry under the scenario measurement
(true payload 3 s, everything else instantaneous). -/
theorem detect_injections_timed_spec_witness :
    injection_integer ∈ injectors ∧
    renderTimedPair injection_integer "Bible" "count((//.))"
        = some ("Bible and true() and count((//.))", "Bible and false() and count((//.))") ∧
    ((injection_integer ∈ (detect_injections_timed measure_scenario "Bible" "count((//.))").1 ↔
        (measure_scenario "Bible and false() and count((//.))" * 2
            < measure_scenario "Bible and true() and count((//.))" ∧
          1 < measure_scenario "Bible and true() and count((//.))")) ∧
      ((detect_injections_timed measure_scenario "Bible" "count((//.))").1 = [] →
        (detect_injections_timed measure_scenario "Bible" "count((//.))").2 = 0) ∧
      ((detect_injections_timed measure_scenario "Bible" "count((//.))").1 ≠ [] →
        ∃ binj btp bfp,
          binj ∈ (detect_injections_timed measure_scenario "Bible" "count((//.))").1 ∧
          renderTimedPair binj "Bible" "count((//.))" = some (btp, bfp) ∧
          (detect_injections_timed measure_scenario "Bible" "count((//.))").2
              = (measure_scenario btp + measure_scenario bfp) / 2 ∧
          ∀ inj2 tp2 fp2,
            inj2 ∈ (detect_injections_timed measure_scenario "Bible" "count((//.))").1 →
            renderTimedPair inj2 "Bible" "count((//.))" = some (tp2, fp2) →
            measure_scenario tp2 ≤ measure_scenario btp)) :=
  ⟨List.mem_cons_self _ _, rfl,
    detect_injections_timed_spec measure_scenario "Bible" "count((//.))" injection_integer
      "Bible and true() and count((//.))" "Bible and false() and count((//.))"
      (List.mem_cons_self _ _) rfl⟩

/-- Claim C8: whenever `inband_extract` completes, it keeps the union diff
exactly when a non-target parameter exists and the union diff has strictly
more lines (basic diff kept on ties or without union parameters, with the
union probe sent under every non-target parameter rewritten to
`value | //text()`), and the DFS tree traversal runs iff a non-target
parameter exists and the kept diff has fewer than 50 lines. -/
theorem inband_extract_spec (ctx : InbandCtx)
    (respond : String → List (String × String) → String × Bool)
    (extractDiff : String → String → List String) (tr : InbandTrace)
    (h : inband_extract ctx respond extractDiff = .ok tr) :
    tr.has_union_params = ctx.parameters.any (fun kv => kv.1 != ctx.target_parameter) ∧
    tr.basic_lines
        = extractDiff (respond tr.false_payload []).1 (respond tr.all_data_payload []).1 ∧
    (tr.has_union_params = true →
      tr.union_overrides = some (inband_union_overrides ctx) ∧
      tr.union_lines = extractDiff (respond tr.false_payload []).1
        (respond tr.all_data_payload (inband_union_overrides ctx)).1) ∧
    (tr.has_union_params = false → tr.union_lines = tr.basic_lines) ∧
    tr.diff_lines
        = (if tr.basic_lines.length < tr.union_lines.length then tr.union_lines
           else tr.basic_lines) ∧
    tr.did_dfs = (tr.has_union_params && decide (tr.diff_lines.length < 50)) := by
  rw [inband_extract] at h
  rcases hfind : (ctx.injection.test_payloads ctx.target_parameter_value).find?
      (fun pe => !pe.2) with _ | fpe
  · rw [hfind] at h
    exact absurd h (by simp)
  rw [hfind] at h
  rcases hrend : ctx.injection.render ctx.target_parameter_value (.raw "true() or true()")
      with _ | p
  · rw [hrend] at h
    rcases hfind2 : (ctx.injection.test_payloads ctx.target_parameter_value).find?
        (fun pe => pe.2) with _ | tpe
    · rw [hfind2] at h
      exact absurd h (by simp)
    · rw [hfind2] at h
      simp only [Option.map_some', Except.ok.injEq] at h
      subst h
      by_cases hu : ctx.parameters.any (fun kv => kv.1 != ctx.target_parameter) = true
      · refine ⟨by simp, by simp, ?_, ?_, by simp, by simp⟩
        · intro _
          constructor
          · simp [hu]
          · simp [hu]
        · intro habs
          simp only at habs
          rw [hu] at habs
          exact absurd habs (by simp)
      · have hu' : ctx.parameters.any (fun kv => kv.1 != ctx.target_parameter) = false := by
          rcases hx : ctx.parameters.any (fun kv => kv.1 != ctx.target_parameter) with _ | _
          · rfl
          · exact absurd hx hu
        refine ⟨by simp, by simp, ?_, ?_, by simp, by simp⟩
        · intro habs
          simp only at habs
          rw [hu'] at habs
          exact absurd habs (by simp)
        · intro _
          simp [hu']
  · rw [hrend] at h
    simp only [Except.ok.injEq] at h
    subst h
    by_cases hu : ctx.parameters.any (fun kv => kv.1 != ctx.target_parameter) = true
    · refine ⟨by simp, by simp, ?_, ?_, by simp, by simp⟩
      · intro _
        constructor
        · simp [hu]
        · simp [hu]
      · intro habs
        simp only at habs
        rw [hu] at habs
        exact absurd habs (by simp)
    · have hu' : ctx.parameters.any (fun kv => kv.1 != ctx.target_parameter) = false := by
        rcases hx : ctx.parameters.any (fun kv => kv.1 != ctx.target_parameter) with _ | _
        · rfl
        · exact absurd hx hu
      refine ⟨by simp, by simp, ?_, ?_, by simp, by simp⟩
      · intro habs
        simp only at habs
        rw [hu'] at habs
        exact absurd habs (by simp)
      · intro _
        simp [hu']

/-- Witness for C8: a single-parameter context (no union parameters), the
never-matching responder and the empty diff. -/
theorem inband_extract_spec_witness :
    inband_extract ctx_inband_single respond_none diff_none
        = .ok
          { false_payload := "Bible and 1=2"
            all_data_payload := "Bible and true() or true()"
            has_union_params := false
            union_overrides := none
            basic_lines := []
            union_lines := []
            diff_lines := []
            did_dfs := false
            tree_lines := []
            result := none } ∧
    ((false : Bool)
        = ctx_inband_single.parameters.any
            (fun kv => kv.1 != ctx_inband_single.target_parameter) ∧
      ([] : List String)
        = diff_none (respond_none "Bible and 1=2" []).1
            (respond_none "Bible and true() or true()" []).1 ∧
      ((false : Bool) = true →
        (none : Option (List (String × String)))
            = some (inband_union_overrides ctx_inband_single) ∧
        ([] : List String) = diff_none (respond_none "Bible and 1=2" []).1
          (respond_none "Bible and true() or true()"
            (inband_union_overrides ctx_inband_single)).1) ∧
      ((false : Bool) = false → ([] : List String) = []) ∧
      ([] : List String)
          = (if ([] : List String).length < ([] : List String).length then ([] : List String)
             else []) ∧
      (false : Bool) = (false && decide (([] : List String).length < 50))) := by
  refine ⟨rfl, ?_⟩
  have h := inband_extract_spec ctx_inband_single respond_none diff_none
    { false_payload := "Bible and 1=2"
      all_data_payload := "Bible and true() or true()"
      has_union_params := false
      union_overrides := none
      basic_lines := []
      union_lines := []
      diff_lines := []
      did_dfs := false
      tree_lines := []
      result := none } rfl
  exact h
